import Mathlib

/-!
Verification development for the atbu-mp-pipeline repository
(src/src/atbu/mp_pipeline/mp_pipeline.py).

The Python source is shallowly embedded: every class becomes a structure
capturing the fields the claims depend on, every method a pure function
(stateful methods become state-passing functions, fallible methods return
Except).  Bytes values are modelled as List Nat, opaque user payloads as Nat
identifiers, and Future objects as explicit states.  Names follow the source
where Lean permits.
-/

set_option maxHeartbeats 1000000

section Definitions

/-- Error kinds raised by the source.  Each constructor corresponds to one
Python exception class used by mp_pipeline.py; userError models opaque
exceptions raised inside user-supplied callables (for example
RuntimeError). -/
inductive PErr where
  | invalidFunctionArgument
  | invalidStateError
  | invalidPipeConnectionMessage
  | pipeConnectionAlreadyEof
  | pipelineResultIsNotPipelineWorkItem
  | pipelineLastStageError
  | notImplementedError
  | eofError
  | userError (n : Nat)
deriving DecidableEq, Repr

/-- Data carried by a pipe message as seen by isinstance checks: either a
bytes-like value (bytes or bytearray, modelled as List Nat) or some other
object that is not bytes-like. -/
inductive MsgData where
  | bytes (b : List Nat)
  | notBytes
deriving DecidableEq, Repr

/-- The built-in DATA command tag (PIPE_CONN_MSG_CMD_DATA in the source). -/
def PIPE_CONN_MSG_CMD_DATA : String := "data"

/-- The built-in DATA_FINAL command tag (PIPE_CONN_MSG_CMD_DATA_FINAL). -/
def PIPE_CONN_MSG_CMD_DATA_FINAL : String := "data-final"

/-- PipeConnectionMessage: a tagged frame with a command string and data.
The Python constructor coerces a None data argument to empty bytes and
rejects non-bytes data, so a constructed message always carries bytes;
messages arriving over the wire are not subject to that constructor. -/
structure PipeConnectionMessage where
  cmd : String
  data : MsgData
deriving DecidableEq, Repr

/-- PipeConnectionMessage.__init__: None data becomes empty bytes; data that
is neither bytes nor bytearray raises InvalidFunctionArgument. -/
def PipeConnectionMessage.make (cmd : String) (data : Option MsgData) :
    Except PErr PipeConnectionMessage :=
  match data with
  | Option.none => .ok ⟨cmd, MsgData.bytes []⟩
  | some (MsgData.bytes b) => .ok ⟨cmd, MsgData.bytes b⟩
  | some MsgData.notBytes => .error PErr.invalidFunctionArgument

/-- State of one PipeConnectionIO endpoint: its role (is_write), the running
byte counter (_num_bytes), the latched end-of-stream flag (_eof) and whether
the underlying kernel Connection has been closed. -/
structure PipeConnection where
  is_write : Bool
  num_bytes : Nat
  eof : Bool
  conn_closed : Bool
deriving DecidableEq, Repr

namespace PipeConnection

/-- PipeConnectionIO.tell, which returns num_bytes. -/
def tell (s : PipeConnection) : Nat := s.num_bytes

/-- PipeConnectionIO.reset_num_bytes. -/
def reset_num_bytes (s : PipeConnection) : PipeConnection :=
  { s with num_bytes := 0 }

/-- PipeConnectionIO.send_message.  Fails with PipeConnectionAlreadyEof when
eof is latched.  The message is a PipeConnectionMessage whose cmd is a
string by typing, so those isinstance checks pass.  size is the data length
when data is bytes-like and stays -1 (modelled as Option.none) otherwise;
after the transmit, eof latches on a DATA_FINAL cmd and the byte counter
grows by size whenever size was set, regardless of the cmd tag. -/
def send_message (s : PipeConnection) (msg : PipeConnectionMessage) :
    Except PErr PipeConnection :=
  if s.eof then .error PErr.pipeConnectionAlreadyEof
  else
    let size : Option Nat :=
      match msg.data with
      | MsgData.bytes b => some b.length
      | MsgData.notBytes => Option.none
    let s1 :=
      if msg.cmd = PIPE_CONN_MSG_CMD_DATA_FINAL then { s with eof := true } else s
    match size with
    | some n => .ok { s1 with num_bytes := s1.num_bytes + n }
    | Option.none => .ok s1

/-- What Connection.recv can deliver to PipeConnectionIO.recv_message: an
EOFError (peer closed while waiting), an object that is not a
PipeConnectionMessage, a message whose cmd is None or not a string, or a
well-typed message. -/
inductive RecvItem where
  | eofSignal
  | notAMessage
  | badCmd
  | msg (cmd : String) (data : MsgData)
deriving DecidableEq, Repr

/-- PipeConnectionIO.recv_message.  EOFError is re-raised unchanged; a
non-message object or a bad cmd raises InvalidPipeConnectionMessage; for a
well-typed message, eof latches on DATA_FINAL and the byte counter grows by
the data length whenever the data is bytes-like, regardless of the cmd
tag. -/
def recv_message (s : PipeConnection) (item : RecvItem) :
    Except PErr (PipeConnection × PipeConnectionMessage) :=
  match item with
  | RecvItem.eofSignal => .error PErr.eofError
  | RecvItem.notAMessage => .error PErr.invalidPipeConnectionMessage
  | RecvItem.badCmd => .error PErr.invalidPipeConnectionMessage
  | RecvItem.msg cmd data =>
    let s1 :=
      if cmd = PIPE_CONN_MSG_CMD_DATA_FINAL then { s with eof := true } else s
    match data with
    | MsgData.bytes b => .ok ({ s1 with num_bytes := s1.num_bytes + b.length }, ⟨cmd, data⟩)
    | MsgData.notBytes => .ok (s1, ⟨cmd, data⟩)

/-- PipeConnectionIO._write: only the writer side may write; the buffer is
wrapped in a PipeConnectionMessage (always bytes, so construction succeeds)
and sent; returns the buffer length. -/
def write_cmd (s : PipeConnection) (cmd : String) (b : List Nat) :
    Except PErr (PipeConnection × Nat) :=
  if !s.is_write then .error PErr.notImplementedError
  else
    match send_message s ⟨cmd, MsgData.bytes b⟩ with
    | .error e => .error e
    | .ok s1 => .ok (s1, b.length)

/-- PipeConnectionIO.write.  _validate_write_buf rejects None and non-bytes
buffers with InvalidFunctionArgument; a zero-length buffer short-circuits to
returning 0 before anything is sent (and hence before any eof check); a
non-empty buffer is sent as a DATA frame. -/
def write (s : PipeConnection) (buf : Option MsgData) :
    Except PErr (PipeConnection × Nat) :=
  match buf with
  | Option.none => .error PErr.invalidFunctionArgument
  | some MsgData.notBytes => .error PErr.invalidFunctionArgument
  | some (MsgData.bytes b) =>
    if b.length = 0 then .ok (s, 0)
    else write_cmd s PIPE_CONN_MSG_CMD_DATA b

/-- PipeConnectionIO.write_eof: fails with PipeConnectionAlreadyEof when eof
is already latched, validates the buffer, then sends a DATA_FINAL frame. -/
def write_eof (s : PipeConnection) (buf : Option MsgData) :
    Except PErr (PipeConnection × Nat) :=
  if s.eof then .error PErr.pipeConnectionAlreadyEof
  else
    match buf with
    | Option.none => .error PErr.invalidFunctionArgument
    | some MsgData.notBytes => .error PErr.invalidFunctionArgument
    | some (MsgData.bytes b) => write_cmd s PIPE_CONN_MSG_CMD_DATA_FINAL b

/-- PipeConnectionIO.read.  The writer side cannot read; an explicit size
argument raises InvalidPipeConnectionMessage; once eof is latched an empty
buffer is returned forever; otherwise a message is received, its cmd must be
one of the two data cmds and its data must be bytes-like, else
InvalidPipeConnectionMessage; an EOFError from the peer yields an empty
buffer. -/
def read (s : PipeConnection) (size : Option Nat) (item : RecvItem) :
    Except PErr (PipeConnection × List Nat) :=
  if s.is_write then .error PErr.notImplementedError
  else if size.isSome then .error PErr.invalidPipeConnectionMessage
  else if s.eof then .ok (s, [])
  else
    match recv_message s item with
    | .error PErr.eofError => .ok (s, [])
    | .error e => .error e
    | .ok (s1, m) =>
      if m.cmd = PIPE_CONN_MSG_CMD_DATA ∨ m.cmd = PIPE_CONN_MSG_CMD_DATA_FINAL then
        match m.data with
        | MsgData.bytes b => .ok (s1, b)
        | MsgData.notBytes => .error PErr.invalidPipeConnectionMessage
      else .error PErr.invalidPipeConnectionMessage

/-- PipeConnectionIO.close.  In the source the call that closes the
underlying connection sits inside the body of the very-verbose-logging
conditional, so the connection is closed only when very-verbose logging is
active. -/
def close (very_verbose : Bool) (s : PipeConnection) : PipeConnection :=
  if very_verbose then { s with conn_closed := true } else s

/-- The closed property, which reports the underlying Connection state. -/
def closed (s : PipeConnection) : Bool := s.conn_closed

end PipeConnection

/-- PipelineWorkItem: the caller-supplied unit of work.  Fields mirror the
Python instance attributes (_cur_stage, user_obj, user_kwargs, exceptions,
pipe_conn, _auto_copy_attr); extra_attrs models the user-added attributes
outside _OUR_ATTRIBUTES that auto-copy transfers.  The user payload and
kwargs values are opaque and modelled as Nat identifiers.  _cur_stage is a
Python int; the controller only ever increments it or sets it to num_stages,
so Nat is faithful for reachable states. -/
structure PipelineWorkItem where
  cur_stage : Nat
  user_obj : Nat
  user_kwargs : List (Nat × Nat)
  exceptions : Option (List PErr)
  pipe_conn : Option Nat
  auto_copy_attr : Bool
  extra_attrs : List (Nat × Nat)
deriving DecidableEq, Repr

namespace PipelineWorkItem

/-- PipelineWorkItem.is_failed: exceptions is not None and non-empty. -/
def is_failed (wi : PipelineWorkItem) : Bool :=
  match wi.exceptions with
  | some l => decide (0 < l.length)
  | Option.none => false

/-- PipelineWorkItem.append_exception: lazily creates the list then
appends. -/
def append_exception (wi : PipelineWorkItem) (ex : PErr) : PipelineWorkItem :=
  { wi with exceptions := some (wi.exceptions.getD [] ++ [ex]) }

/-- PipelineWorkItem.increment_stage. -/
def increment_stage (wi : PipelineWorkItem) : PipelineWorkItem :=
  { wi with cur_stage := wi.cur_stage + 1 }

/-- Python dict assignment d[k] = v on an association list: replaces the
value under an existing key, otherwise appends the pair. -/
def set_attr (l : List (Nat × Nat)) (kv : Nat × Nat) : List (Nat × Nat) :=
  if l.any (fun p => p.1 == kv.1) then
    l.map (fun p => if p.1 == kv.1 then kv else p)
  else l ++ [kv]

/-- The auto-copy loop of stage_complete: every attribute of the completed
item outside _OUR_ATTRIBUTES is assigned onto self. -/
def merge_attrs (self_attrs other_attrs : List (Nat × Nat)) : List (Nat × Nat) :=
  other_attrs.foldl set_attr self_attrs

/-- PipelineWorkItem.stage_complete for the case where the wi argument is a
distinct object (the successful-stage path, where wi is the item returned by
the stage Future): append ex when non-None, extend the failure list with
wi's failures when wi is failed, always copy user_obj, and auto-copy the
non-owned attributes when the flag is set.  stage_num is accepted and unused
exactly as in the source. -/
def stage_complete (self : PipelineWorkItem) (stage_num : Nat)
    (wi : PipelineWorkItem) (ex : Option PErr) : PipelineWorkItem :=
  let _ := stage_num
  let s1 := match ex with
    | some e => append_exception self e
    | Option.none => self
  let s2 := if wi.is_failed then
      { s1 with exceptions := some (s1.exceptions.getD [] ++ wi.exceptions.getD []) }
    else s1
  let s3 := { s2 with user_obj := wi.user_obj }
  if self.auto_copy_attr then
    { s3 with extra_attrs := merge_attrs s3.extra_attrs wi.extra_attrs }
  else s3

/-- PipelineWorkItem.stage_complete when the wi argument aliases self, which
is how _handle_completed_fut calls it on every error path (it passes the
caller-visible item itself as wi).  Because wi and self are the same mutable
object, the is_failed test and the extend in step 2 observe the list already
mutated by step 1: self.exceptions.extend(self.exceptions) doubles the list.
The user_obj copy and the attribute auto-copy read from the same object and
are no-ops (merge_attrs of a dict with itself reassigns existing keys to
their own values). -/
def stage_complete_self (self : PipelineWorkItem) (stage_num : Nat)
    (ex : Option PErr) : PipelineWorkItem :=
  let _ := stage_num
  let s1 := match ex with
    | some e => append_exception self e
    | Option.none => self
  let s2 := if s1.is_failed then
      { s1 with exceptions := some (s1.exceptions.getD [] ++ s1.exceptions.getD []) }
    else s1
  let s3 := { s2 with user_obj := s2.user_obj }
  if self.auto_copy_attr then
    { s3 with extra_attrs := merge_attrs s3.extra_attrs s3.extra_attrs }
  else s3

end PipelineWorkItem

/-- State of a concurrent.futures Future as the claims need it: pending,
completed via set_result with a work item, or completed via set_exception. -/
inductive FutState where
  | pending
  | result (wi : PipelineWorkItem)
  | exc (e : PErr)
deriving DecidableEq, Repr

/-- Future.result() raises exactly when the future completed with
set_exception. -/
def fut_result_raises : FutState → Bool
  | FutState.exc _ => true
  | _ => false

/-- MultiprocessingPipeline._set_wi_to_finished completes the user-visible
future with set_result(wi) — also for failed work items. -/
def set_wi_to_finished (wi : PipelineWorkItem) : FutState :=
  FutState.result wi

/-- Outcome of a completed stage Future as _handle_completed_fut inspects
it: the worker raised, returned a PipelineWorkItem, or returned something
else. -/
inductive FutOutcome where
  | excRaised (e : PErr)
  | resultWi (wi : PipelineWorkItem)
  | resultOther
deriving DecidableEq, Repr

/-- The branch of MultiprocessingPipeline._handle_completed_fut for a Future
that belongs to running pipeline work, after _get_completed_work_item_info
returned the caller-visible item wi and its context stage number.  On an
exception, stage_complete is invoked with the caller-visible item itself as
the wi argument (aliased); likewise when the worker returned a
non-PipelineWorkItem, with a PipelineResultIsNotPipelineWorkItem error; a
returned work item is merged via the non-aliased stage_complete. -/
def handle_completed_fut_running (wi : PipelineWorkItem) (stage_num : Nat)
    (outcome : FutOutcome) : PipelineWorkItem :=
  match outcome with
  | FutOutcome.excRaised e => wi.stage_complete_self stage_num (some e)
  | FutOutcome.resultOther =>
      wi.stage_complete_self stage_num (some PErr.pipelineResultIsNotPipelineWorkItem)
  | FutOutcome.resultWi w => wi.stage_complete stage_num w Option.none

/-- PipelineStage: execution location and pairing flag.  The predicate
(fn_determiner) and worker (fn_worker) are opaque user callables and are
supplied to the controller functions as oracles. -/
structure PipelineStage where
  is_subprocess : Bool
  is_pipe_with_next_stage : Bool
deriving DecidableEq, Repr, Inhabited

/-- Result of invoking a stage predicate on a work item: it returned a
boolean or raised. -/
inductive PredOutcome where
  | ok (b : Bool)
  | raised (e : PErr)
deriving DecidableEq, Repr

/-- MultiprocessingPipeline._is_stage_for_work_item: asks the stage
predicate whether it wants the item; any exception is appended to the item
as a failure and the answer becomes False. -/
def is_stage_for_work_item (preds : Nat → PipelineWorkItem → PredOutcome)
    (wi : PipelineWorkItem) (stage_num : Nat) : PipelineWorkItem × Bool :=
  match preds stage_num wi with
  | PredOutcome.ok b => (wi, b)
  | PredOutcome.raised e => (wi.append_exception e, false)

/-- Record of one executor submission performed by _submit_to_stage: the
stage number submitted, whether the secondary subprocess pool was used, and
the execution location of the stage. -/
structure SubmitRec where
  stage : Nat
  use_second_pool : Bool
  is_subprocess : Bool
deriving DecidableEq, Repr

/-- MultiprocessingPipeline._try_submit_to_stage: if the predicate refuses
(or raised, making the item failed, in which case cur_stage jumps to
num_stages), no submission happens and False is returned; otherwise the
stage is submitted (one tracked context) and cur_stage is incremented. -/
def try_submit_to_stage (stages : List PipelineStage)
    (preds : Nat → PipelineWorkItem → PredOutcome) (wi : PipelineWorkItem) :
    PipelineWorkItem × List SubmitRec × Bool :=
  let r := is_stage_for_work_item preds wi wi.cur_stage
  if !r.2 then
    let wi2 := if r.1.is_failed then { r.1 with cur_stage := stages.length } else r.1
    (wi2, [], false)
  else
    let st := stages.getD r.1.cur_stage default
    (r.1.increment_stage, [⟨r.1.cur_stage, false, st.is_subprocess⟩], true)

/-- MultiprocessingPipeline._try_submit_to_dual_stage_with_pipe: raises
PipelineLastStageError when the current stage is the last; otherwise asks
both the current and the next stage predicate (a refusal or a raise behaves
as in the single-stage case); when both accept, the writer half is submitted
to the primary subprocess pool, cur_stage is incremented, the reader half is
submitted to the secondary pool, and cur_stage is incremented again.  The
pipe-endpoint bookkeeping (_fut_to_pipe_conn) is modelled separately by
PipeConnTable. -/
def try_submit_to_dual_stage_with_pipe (stages : List PipelineStage)
    (preds : Nat → PipelineWorkItem → PredOutcome) (wi : PipelineWorkItem) :
    Except (PErr × PipelineWorkItem) (PipelineWorkItem × List SubmitRec × Bool) :=
  if wi.cur_stage = stages.length - 1 then
    .error (PErr.pipelineLastStageError, wi)
  else
    let r1 := is_stage_for_work_item preds wi wi.cur_stage
    if !r1.2 then
      let wi2 := if r1.1.is_failed then { r1.1 with cur_stage := stages.length } else r1.1
      .ok (wi2, [], false)
    else
      let r2 := is_stage_for_work_item preds r1.1 (r1.1.cur_stage + 1)
      if !r2.2 then
        let wi2 := if r2.1.is_failed then { r2.1 with cur_stage := stages.length } else r2.1
        .ok (wi2, [], false)
      else
        let stW := stages.getD r2.1.cur_stage default
        let recW : SubmitRec := ⟨r2.1.cur_stage, false, stW.is_subprocess⟩
        let wi5 := r2.1.increment_stage
        let stR := stages.getD wi5.cur_stage default
        let recR : SubmitRec := ⟨wi5.cur_stage, true, stR.is_subprocess⟩
        .ok (wi5.increment_stage, [recW, recR], true)

/-- The while-loop of MultiprocessingPipeline._handle_stages_for_wi, with
fuel (the loop increments cur_stage on every non-breaking iteration, so
num_stages - cur_stage iterations suffice).  A successful submission or a
failure breaks the loop; a refusal advances to the next stage.  An
exception escaping _try_submit_to_dual_stage_with_pipe propagates, carrying
the (in-place mutated) work item. -/
def stage_loop (stages : List PipelineStage)
    (preds : Nat → PipelineWorkItem → PredOutcome) :
    Nat → PipelineWorkItem →
    Except (PErr × PipelineWorkItem) (PipelineWorkItem × List SubmitRec)
  | 0, wi => .ok (wi, [])
  | fuel + 1, wi =>
    if wi.cur_stage < stages.length then
      if (stages.getD wi.cur_stage default).is_pipe_with_next_stage then
        match try_submit_to_dual_stage_with_pipe stages preds wi with
        | .error e => .error e
        | .ok (wi2, subs, submitted) =>
          if submitted then .ok (wi2, subs)
          else if wi2.is_failed then .ok (wi2, subs)
          else stage_loop stages preds fuel wi2.increment_stage
      else
        let r := try_submit_to_stage stages preds wi
        if r.2.2 then .ok (r.1, r.2.1)
        else if r.1.is_failed then .ok (r.1, r.2.1)
        else stage_loop stages preds fuel r.1.increment_stage
    else .ok (wi, [])

/-- Result of _handle_stages_for_wi: the mutated work item, the submissions
performed, and whether the item was finalized (_set_wi_to_finished). -/
structure StagesResult where
  wi : PipelineWorkItem
  submissions : List SubmitRec
  finished : Bool
deriving DecidableEq, Repr

/-- MultiprocessingPipeline._handle_stages_for_wi for an item with no other
outstanding executions (the only situation in which _pl_worker calls it):
an out-of-range cur_stage is recorded as an InvalidStateError and the item
finalized; otherwise the submission loop runs, and afterwards the item is
finalized iff nothing was submitted for it (it is not still running) and
cur_stage reached num_stages.  cur_stage below 0 cannot occur over Nat. -/
def handle_stages_for_wi (stages : List PipelineStage)
    (preds : Nat → PipelineWorkItem → PredOutcome) (wi : PipelineWorkItem) :
    Except (PErr × PipelineWorkItem) StagesResult :=
  if wi.cur_stage > stages.length then
    .ok ⟨{ wi.append_exception PErr.invalidStateError with cur_stage := stages.length },
      [], true⟩
  else
    match stage_loop stages preds (stages.length - wi.cur_stage) wi with
    | .error e => .error e
    | .ok (wi2, subs) =>
      .ok ⟨wi2, subs, subs.isEmpty && decide (stages.length ≤ wi2.cur_stage)⟩

/-- MultiprocessingPipeline._fail_all_pending: every tracked item whose
user-visible future is not yet done gets the exception appended and its
future completed with set_exception. -/
def fail_all_pending (table : List (PipelineWorkItem × FutState)) (e : PErr) :
    List (PipelineWorkItem × FutState) :=
  table.map (fun p =>
    match p.2 with
    | FutState.pending => (p.1.append_exception e, FutState.exc e)
    | _ => p)

/-- The segment of MultiprocessingPipeline._pl_worker that gives attention
to one work item whose stage Future just completed and which has no other
outstanding executions: merge the completion into the caller-visible item;
if the item is failed, finalize it (set_result); otherwise run
_handle_stages_for_wi, finalizing when that reports the item finished.  An
exception escaping the body is modelled by the caller (pl_worker_advance). -/
def pl_worker_attention (stages : List PipelineStage)
    (preds : Nat → PipelineWorkItem → PredOutcome) (wi : PipelineWorkItem)
    (stage_num : Nat) (outcome : FutOutcome) :
    Except (PErr × PipelineWorkItem) (PipelineWorkItem × Option FutState × List SubmitRec) :=
  let wi2 := handle_completed_fut_running wi stage_num outcome
  if wi2.is_failed then .ok (wi2, some (set_wi_to_finished wi2), [])
  else
    match handle_stages_for_wi stages preds wi2 with
    | .error e => .error e
    | .ok r =>
      .ok (r.wi, if r.finished then some (set_wi_to_finished r.wi) else Option.none,
        r.submissions)

/-- The exception handler wrapping the _pl_worker body: advancing the work
item at the head of the submitted-items table (its user future still
pending).  If _handle_stages_for_wi raises, the except branch runs
_fail_all_pending over the whole table and the controller re-raises (the
returned flag records the crash); otherwise the table entry is updated,
completed when the item finished. -/
def pl_worker_advance (stages : List PipelineStage)
    (preds : Nat → PipelineWorkItem → PredOutcome) (wi : PipelineWorkItem)
    (others : List (PipelineWorkItem × FutState)) :
    List (PipelineWorkItem × FutState) × Bool :=
  match handle_stages_for_wi stages preds wi with
  | .error e => (fail_all_pending ((e.2, FutState.pending) :: others) e.1, true)
  | .ok r =>
    ((r.wi, if r.finished then set_wi_to_finished r.wi else FutState.pending) :: others,
      false)

/-- The MultiprocessingPipeline bookkeeping that shutdown() touches:
whether the controller future exists (_pl_worker_future is not None), the
submitted-items table _wi_to_wifut (keys are work items; Option.none is the
Python None key inserted by the shutdown sentinel), the input queue, the
shutdown state of the three executors, and was_graceful_shutdown. -/
structure MpPipelineState where
  pl_worker_running : Bool
  wi_to_wifut : List (Option Nat × FutState)
  pl_input_queue : List (Option Nat)
  process_exec_is_shutdown : Bool
  process_exec2_is_shutdown : Bool
  thread_exec_is_shutdown : Bool
  was_graceful_shutdown : Bool
deriving DecidableEq, Repr

/-- MultiprocessingPipeline._internal_submit: starts the controller if
needed, registers the submitted object (even the None shutdown sentinel) in
_wi_to_wifut with a fresh pending future, and enqueues it on the input
queue.  The submitted key is assumed not already present, which submit()
enforces for real items and which holds for the single None sentinel. -/
def internal_submit (p : MpPipelineState) (k : Option Nat) : MpPipelineState :=
  { p with
    pl_worker_running := true,
    wi_to_wifut := p.wi_to_wifut ++ [(k, FutState.pending)],
    pl_input_queue := p.pl_input_queue ++ [k] }

/-- The behaviour of _pl_worker observed by shutdown() once the pipeline is
quiescent (no running stage contexts) and the only queued entry is the None
shutdown sentinel: _get_queued_wi pops the sentinel, the loop breaks, and
was_graceful_shutdown flips true.  Nothing removes the sentinel entry from
_wi_to_wifut.  Other queue shapes are not exercised by the shutdown path
modelled here. -/
def pl_worker_shutdown_drain (p : MpPipelineState) : MpPipelineState :=
  match p.pl_input_queue with
  | Option.none :: rest =>
    { p with pl_input_queue := rest, was_graceful_shutdown := true }
  | _ => p

/-- MultiprocessingPipeline.shutdown: returns immediately when the
controller was never started; otherwise waits for _wi_to_wifut to drain
(the theorems apply this function in the drained state the wait produces),
submits the None sentinel via _internal_submit, joins the controller
(modelled by pl_worker_shutdown_drain), clears _pl_worker_future, and shuts
down _process_exec and _thread_exec.  The source never shuts down
_process_exec2. -/
def MpPipelineState.shutdown (p : MpPipelineState) : MpPipelineState :=
  if !p.pl_worker_running then p
  else
    let p1 := internal_submit p Option.none
    let p2 := pl_worker_shutdown_drain p1
    let p3 := { p2 with pl_worker_running := false }
    { p3 with process_exec_is_shutdown := true, thread_exec_is_shutdown := true }

/-- _WorkItemStageRunCtx: one tracked stage execution.  The Future is
modelled by an identifier (fid) plus its done() state at the moment
_get_all_wi_futs inspects it; the wi back-reference is implicit in the
grouping of contexts by work item. -/
structure WorkItemStageRunCtx where
  cur_stage : Nat
  fid : Nat
  isDone : Bool
deriving DecidableEq, Repr

/-- The _fut_to_pipe_conn table (Future identifier to raw pipe-endpoint
identifier) together with the history of Connection.close() calls the
controller has issued, recorded with multiplicity so that closed-exactly-
once is expressible. -/
structure PipeConnTable where
  fut_to_pipe_conn : List (Nat × Nat)
  closed_conns : List Nat
deriving DecidableEq, Repr

/-- Python dict lookup on the association list underlying
_fut_to_pipe_conn. -/
def conn_lookup : List (Nat × Nat) → Nat → Option Nat
  | [], _ => Option.none
  | (k, v) :: rest, fid => if k = fid then some v else conn_lookup rest fid

/-- MultiprocessingPipeline._cleanup_pipe_connections: if the done Future
has a recorded pipe endpoint, close that endpoint and delete the table
entry; otherwise do nothing. -/
def cleanup_pipe_connections (t : PipeConnTable) (done_fid : Nat) : PipeConnTable :=
  match conn_lookup t.fut_to_pipe_conn done_fid with
  | some conn =>
    { fut_to_pipe_conn := t.fut_to_pipe_conn.filter (fun p => decide (p.1 ≠ done_fid)),
      closed_conns := t.closed_conns ++ [conn] }
  | Option.none => t

/-- Folding _cleanup_pipe_connections over a list of done Future
identifiers, in order. -/
def cleanup_all (t : PipeConnTable) (fids : List Nat) : PipeConnTable :=
  fids.foldl cleanup_pipe_connections t

/-- All done Future identifiers in the order _get_all_wi_futs visits them
(per work item, done contexts in stored order). -/
def all_done_fids (ctxss : List (List WorkItemStageRunCtx)) : List Nat :=
  ctxss.flatMap (fun ctxs => (ctxs.filter (fun c => c.isDone)).map (fun c => c.fid))

/-- MultiprocessingPipeline._get_all_wi_futs: per work item (one inner list
of contexts per item, in stage order as tracked), compute the done and
pending Futures; close the pipe connections of every done Future; a work
item contributes all its Futures to the done list only when it has no
pending Future, otherwise only its pending Futures to the pending list.
Returns ((done_futs, pending_futs), the pipe-connection table). -/
def get_all_wi_futs :
    List (List WorkItemStageRunCtx) → PipeConnTable →
    (List Nat × List Nat) × PipeConnTable
  | [], t => (([], []), t)
  | ctxs :: rest, t =>
    let ctx_futs := ctxs.map (fun c => c.fid)
    let ctx_done_futs := (ctxs.filter (fun c => c.isDone)).map (fun c => c.fid)
    let ctx_pending_futs := ctx_futs.filter (fun f => decide (f ∉ ctx_done_futs))
    let t1 := cleanup_all t ctx_done_futs
    let r := get_all_wi_futs rest t1
    if ctx_pending_futs.isEmpty then
      ((ctx_futs ++ r.1.1, r.1.2), r.2)
    else
      ((r.1.1, ctx_pending_futs ++ r.1.2), r.2)

end Definitions

section Theorems

/-- C2 counterexample: sending a frame with the custom tag "custom-tag" and
a two-byte payload on a fresh producer endpoint advances the byte counter
from 0 to 2, so tell() does not return the same value before and after an
operation on a custom-tag frame. -/
theorem c2_counterexample :
    PipeConnection.send_message
        { is_write := true, num_bytes := 0, eof := false, conn_closed := false }
        { cmd := "custom-tag", data := MsgData.bytes [1, 2] } =
      .ok { is_write := true, num_bytes := 2, eof := false, conn_closed := false } ∧
    (2 : Nat) ≠ 0 := by
  constructor
  · rfl
  · decide

/-- C2 (amended): the byte counter advances by the payload length on every
frame sent or received whose data is bytes-like, regardless of the tag
(built-in or custom); frames whose data is not bytes-like leave the counter
unchanged.  In particular DATA and DATA_FINAL frames add exactly the payload
length. -/
theorem c2_byte_counter_amended (s : PipeConnection) (cmd : String) (b : List Nat)
    (heof : s.eof = false) :
    (∃ s1, PipeConnection.send_message s ⟨cmd, MsgData.bytes b⟩ = .ok s1 ∧
       s1.num_bytes = s.num_bytes + b.length) ∧
    (∃ s1, PipeConnection.send_message s ⟨cmd, MsgData.notBytes⟩ = .ok s1 ∧
       s1.num_bytes = s.num_bytes) ∧
    (∃ s1 m, PipeConnection.recv_message s (PipeConnection.RecvItem.msg cmd (MsgData.bytes b)) =
       .ok (s1, m) ∧ s1.num_bytes = s.num_bytes + b.length) ∧
    (∃ s1 m, PipeConnection.recv_message s (PipeConnection.RecvItem.msg cmd MsgData.notBytes) =
       .ok (s1, m) ∧ s1.num_bytes = s.num_bytes) := by
  refine ⟨?_, ?_, ?_, ?_⟩ <;>
    by_cases hc : cmd = PIPE_CONN_MSG_CMD_DATA_FINAL <;>
      simp [PipeConnection.send_message, PipeConnection.recv_message, heof, hc]

/-- Witness for c2_byte_counter_amended at a concrete producer state with a
custom tag and payload [5]. -/
theorem c2_witness :
    (∃ s1, PipeConnection.send_message
        { is_write := true, num_bytes := 0, eof := false, conn_closed := false }
        ⟨"custom-tag", MsgData.bytes [5]⟩ = .ok s1 ∧ s1.num_bytes = 0 + 1) ∧
    (∃ s1, PipeConnection.send_message
        { is_write := true, num_bytes := 0, eof := false, conn_closed := false }
        ⟨"custom-tag", MsgData.notBytes⟩ = .ok s1 ∧ s1.num_bytes = 0) ∧
    (∃ s1 m, PipeConnection.recv_message
        { is_write := true, num_bytes := 0, eof := false, conn_closed := false }
        (PipeConnection.RecvItem.msg "custom-tag" (MsgData.bytes [5])) =
      .ok (s1, m) ∧ s1.num_bytes = 0 + 1) ∧
    (∃ s1 m, PipeConnection.recv_message
        { is_write := true, num_bytes := 0, eof := false, conn_closed := false }
        (PipeConnection.RecvItem.msg "custom-tag" MsgData.notBytes) =
      .ok (s1, m) ∧ s1.num_bytes = 0) :=
  c2_byte_counter_amended
    { is_write := true, num_bytes := 0, eof := false, conn_closed := false }
    "custom-tag" [5] rfl

/-- C5 counterexample: read with an explicit size on a consumer endpoint
fails with InvalidPipeConnectionMessage (the MalformedFrame kind), which is
a different error kind than InvalidFunctionArgument (the InvalidArgument
kind). -/
theorem c5_counterexample :
    PipeConnection.read
        { is_write := false, num_bytes := 0, eof := false, conn_closed := false }
        (some 5) (PipeConnection.RecvItem.msg "data" (MsgData.bytes [])) =
      .error PErr.invalidPipeConnectionMessage ∧
    PErr.invalidPipeConnectionMessage ≠ PErr.invalidFunctionArgument := by
  constructor
  · rfl
  · decide

/-- C5 (amended): calling read with an explicit non-None size argument on a
consumer endpoint fails with the MalformedFrame error kind
(InvalidPipeConnectionMessage), not the InvalidArgument kind. -/
theorem c5_read_size_amended (s : PipeConnection) (n : Nat)
    (item : PipeConnection.RecvItem) (h : s.is_write = false) :
    PipeConnection.read s (some n) item = .error PErr.invalidPipeConnectionMessage := by
  simp [PipeConnection.read, h]

/-- Witness for c5_read_size_amended on a concrete consumer endpoint. -/
theorem c5_witness :
    PipeConnection.read
        { is_write := false, num_bytes := 3, eof := true, conn_closed := false }
        (some 0) PipeConnection.RecvItem.eofSignal =
      .error PErr.invalidPipeConnectionMessage :=
  c5_read_size_amended
    { is_write := false, num_bytes := 3, eof := true, conn_closed := false }
    0 PipeConnection.RecvItem.eofSignal rfl

/-- C9: close() closes the underlying pipe connection exactly when
very-verbose logging is enabled; with it disabled, close() leaves the
endpoint state (including the closed property) completely unchanged. -/
theorem c9_close_only_when_verbose (s : PipeConnection) :
    (PipeConnection.close true s).conn_closed = true ∧
    PipeConnection.close false s = s := by
  constructor
  · rfl
  · rfl

/-- C10: on a producer endpoint whose end-of-stream flag is latched, writing
a zero-length buffer still returns 0 with the state untouched (the
zero-length short-circuit precedes the eof check inside send_message), while
writing any non-empty buffer fails with PipeConnectionAlreadyEof. -/
theorem c10_zero_write_after_eof (s : PipeConnection) (b : List Nat)
    (hw : s.is_write = true) (he : s.eof = true) :
    PipeConnection.write s (some (MsgData.bytes [])) = .ok (s, 0) ∧
    (b ≠ [] → PipeConnection.write s (some (MsgData.bytes b)) =
      .error PErr.pipeConnectionAlreadyEof) := by
  constructor
  · rfl
  · intro hb
    cases b with
    | nil => exact absurd rfl hb
    | cons x xs =>
      simp [PipeConnection.write, PipeConnection.write_cmd,
        PipeConnection.send_message, hw, he]

/-- Witness for c10_zero_write_after_eof on a concrete eof-latched producer. -/
theorem c10_witness :
    PipeConnection.write
        { is_write := true, num_bytes := 7, eof := true, conn_closed := false }
        (some (MsgData.bytes [])) =
      .ok ({ is_write := true, num_bytes := 7, eof := true, conn_closed := false }, 0) ∧
    PipeConnection.write
        { is_write := true, num_bytes := 7, eof := true, conn_closed := false }
        (some (MsgData.bytes [1])) =
      .error PErr.pipeConnectionAlreadyEof := by
  have h := c10_zero_write_after_eof
    { is_write := true, num_bytes := 7, eof := true, conn_closed := false }
    [1] rfl rfl
  exact ⟨h.1, h.2 (by decide)⟩

/-- C1 counterexample: a single-stage pipeline whose worker raises
userError 0.  The controller merges the completion via
_handle_completed_fut, which calls stage_complete with the caller-visible
item itself as wi; the resulting failure list is [boom, boom] — length 2,
not 1 — and the finalized user future is a set_result completion, so
result() does not raise. -/
theorem c1_counterexample :
    pl_worker_attention [{ is_subprocess := false, is_pipe_with_next_stage := false }]
        (fun _ _ => PredOutcome.ok false)
        { cur_stage := 1, user_obj := 0, user_kwargs := [], exceptions := Option.none,
          pipe_conn := Option.none, auto_copy_attr := true, extra_attrs := [] } 0
        (FutOutcome.excRaised (PErr.userError 0)) =
      .ok ({ cur_stage := 1, user_obj := 0, user_kwargs := [],
             exceptions := some [PErr.userError 0, PErr.userError 0],
             pipe_conn := Option.none, auto_copy_attr := true, extra_attrs := [] },
        some (FutState.result
          { cur_stage := 1, user_obj := 0, user_kwargs := [],
            exceptions := some [PErr.userError 0, PErr.userError 0],
            pipe_conn := Option.none, auto_copy_attr := true, extra_attrs := [] }),
        []) ∧
    ¬([PErr.userError 0, PErr.userError 0].length = 1) ∧
    fut_result_raises (FutState.result
      { cur_stage := 1, user_obj := 0, user_kwargs := [],
        exceptions := some [PErr.userError 0, PErr.userError 0],
        pipe_conn := Option.none, auto_copy_attr := true, extra_attrs := [] }) = false := by
  refine ⟨rfl, by decide, rfl⟩

/-- C1 (amended): for a pipeline with a single stage whose worker raises an
exception, the submitted work item completes with a failure list of length
exactly 2 containing that exception twice — stage_complete invoked with a
non-null error receives the caller-visible item itself as the result item,
appends the error, and then extends the now-failed list with itself — and
the completion handle is finished via set_result, so result() returns the
failed item instead of raising. -/
theorem c1_single_stage_failure_amended (e : PErr) (u : Nat)
    (stages : List PipelineStage) (preds : Nat → PipelineWorkItem → PredOutcome) :
    pl_worker_attention stages preds
        { cur_stage := 1, user_obj := u, user_kwargs := [], exceptions := Option.none,
          pipe_conn := Option.none, auto_copy_attr := true, extra_attrs := [] } 0
        (FutOutcome.excRaised e) =
      .ok ({ cur_stage := 1, user_obj := u, user_kwargs := [],
             exceptions := some [e, e], pipe_conn := Option.none,
             auto_copy_attr := true, extra_attrs := [] },
        some (FutState.result
          { cur_stage := 1, user_obj := u, user_kwargs := [],
            exceptions := some [e, e], pipe_conn := Option.none,
            auto_copy_attr := true, extra_attrs := [] }),
        []) ∧
    fut_result_raises (FutState.result
      { cur_stage := 1, user_obj := u, user_kwargs := [],
        exceptions := some [e, e], pipe_conn := Option.none,
        auto_copy_attr := true, extra_attrs := [] }) = false :=
  ⟨rfl, rfl⟩

/-- C3: starting from a started pipeline with a drained submitted-items
table and queue and all executors up, shutdown() shuts down the primary
subprocess pool and the thread pool but leaves the secondary subprocess
pool (_process_exec2) running, and leaves the None sentinel entry inserted
by _internal_submit(None) in the submitted-items table, which is therefore
not empty — contradicting the claim that all three executors are shut down
and the table is empty. -/
theorem c3_shutdown_code_bug :
    MpPipelineState.shutdown
        { pl_worker_running := true, wi_to_wifut := [], pl_input_queue := [],
          process_exec_is_shutdown := false, process_exec2_is_shutdown := false,
          thread_exec_is_shutdown := false, was_graceful_shutdown := false } =
      { pl_worker_running := false,
        wi_to_wifut := [(Option.none, FutState.pending)], pl_input_queue := [],
        process_exec_is_shutdown := true, process_exec2_is_shutdown := false,
        thread_exec_is_shutdown := true, was_graceful_shutdown := true } ∧
    (MpPipelineState.shutdown
        { pl_worker_running := true, wi_to_wifut := [], pl_input_queue := [],
          process_exec_is_shutdown := false, process_exec2_is_shutdown := false,
          thread_exec_is_shutdown := false,
          was_graceful_shutdown := false }).process_exec2_is_shutdown = false ∧
    (MpPipelineState.shutdown
        { pl_worker_running := true, wi_to_wifut := [], pl_input_queue := [],
          process_exec_is_shutdown := false, process_exec2_is_shutdown := false,
          thread_exec_is_shutdown := false,
          was_graceful_shutdown := false }).wi_to_wifut ≠ [] := by
  refine ⟨rfl, rfl, by decide⟩

/-- A successful dict lookup pinpoints an entry of the table. -/
theorem conn_lookup_mem : ∀ {l : List (Nat × Nat)} {k v : Nat},
    conn_lookup l k = some v → (k, v) ∈ l := by
  intro l
  induction l with
  | nil => intro k v h; simp [conn_lookup] at h
  | cons p rest ih =>
    intro k v h
    obtain ⟨a, b⟩ := p
    simp only [conn_lookup] at h
    split at h
    · next hak =>
      cases h
      subst hak
      exact List.mem_cons_self _ _
    · exact List.mem_cons_of_mem _ (ih h)

/-- With duplicate-free keys, membership determines the lookup result. -/
theorem conn_lookup_of_mem : ∀ {l : List (Nat × Nat)} {k v : Nat},
    (l.map Prod.fst).Nodup → (k, v) ∈ l → conn_lookup l k = some v := by
  intro l
  induction l with
  | nil => intro k v _ h; simp at h
  | cons p rest ih =>
    intro k v hn hm
    obtain ⟨a, b⟩ := p
    simp only [List.map_cons, List.nodup_cons] at hn
    rcases List.mem_cons.mp hm with heq | hmem
    · cases heq
      simp [conn_lookup]
    · have hak : ¬a = k := by
        intro h
        subst h
        exact hn.1 (List.mem_map.mpr ⟨(a, v), hmem, rfl⟩)
      simp [conn_lookup, hak, ih hn.2 hmem]

/-- A failed dict lookup means the key is absent. -/
theorem not_mem_keys_of_conn_lookup_none : ∀ {l : List (Nat × Nat)} {k : Nat},
    conn_lookup l k = Option.none → k ∉ l.map Prod.fst := by
  intro l
  induction l with
  | nil => intro k _ h; simp at h
  | cons p rest ih =>
    intro k h hm
    obtain ⟨a, b⟩ := p
    simp only [conn_lookup] at h
    simp only [List.map_cons, List.mem_cons] at hm
    split at h
    · exact absurd h (by simp)
    · next hak =>
      rcases hm with heq | hmem
      · exact hak heq.symm
      · exact ih h hmem

/-- _cleanup_pipe_connections only removes table entries. -/
theorem cleanup_table_sublist (t : PipeConnTable) (fid : Nat) :
    (cleanup_pipe_connections t fid).fut_to_pipe_conn.Sublist t.fut_to_pipe_conn := by
  rcases h : conn_lookup t.fut_to_pipe_conn fid with _ | c <;>
    simp only [cleanup_pipe_connections, h]
  · exact List.Sublist.refl _
  · exact List.filter_sublist _

/-- Folded cleanup only removes table entries. -/
theorem cleanup_all_table_sublist : ∀ (fids : List Nat) (t : PipeConnTable),
    (cleanup_all t fids).fut_to_pipe_conn.Sublist t.fut_to_pipe_conn := by
  intro fids
  induction fids with
  | nil => intro t; exact List.Sublist.refl _
  | cons g rest ih =>
    intro t
    exact (ih (cleanup_pipe_connections t g)).trans (cleanup_table_sublist t g)

/-- Folded cleanup over two runs of identifiers composes. -/
theorem cleanup_all_append (t : PipeConnTable) (a b : List Nat) :
    cleanup_all t (a ++ b) = cleanup_all (cleanup_all t a) b := by
  simp [cleanup_all, List.foldl_append]

/-- A connection identifier that no table entry carries is never closed by
folded cleanup. -/
theorem count_cleanup_all_not_mem_vals : ∀ (fids : List Nat) (t : PipeConnTable) (conn : Nat),
    conn ∉ t.fut_to_pipe_conn.map Prod.snd →
    ((cleanup_all t fids).closed_conns.count conn) = t.closed_conns.count conn := by
  intro fids
  induction fids with
  | nil => intro t conn _; rfl
  | cons g rest ih =>
    intro t conn hconn
    rcases h : conn_lookup t.fut_to_pipe_conn g with _ | c
    · have hct : cleanup_pipe_connections t g = t := by
        simp [cleanup_pipe_connections, h]
      show ((cleanup_all (cleanup_pipe_connections t g) rest).closed_conns.count conn) = _
      rw [hct]
      exact ih t conn hconn
    · have hct : cleanup_pipe_connections t g =
          ⟨t.fut_to_pipe_conn.filter (fun p => decide (p.1 ≠ g)),
            t.closed_conns ++ [c]⟩ := by
        simp [cleanup_pipe_connections, h]
      have hcne : conn ≠ c := by
        intro he
        subst he
        exact hconn (List.mem_map.mpr ⟨(g, conn), conn_lookup_mem h, rfl⟩)
      have hconn2 : conn ∉
          (t.fut_to_pipe_conn.filter (fun p => decide (p.1 ≠ g))).map Prod.snd := by
        intro hm
        obtain ⟨p, hp, hps⟩ := List.mem_map.mp hm
        exact hconn (List.mem_map.mpr ⟨p, List.mem_of_mem_filter hp, hps⟩)
      show ((cleanup_all (cleanup_pipe_connections t g) rest).closed_conns.count conn) = _
      rw [hct]
      rw [ih _ conn hconn2]
      simp [List.count_append, List.count_cons, hcne.symm]

/-- Folded cleanup closes the connection recorded for a table entry exactly
once when its Future identifier is among the done identifiers, and never
otherwise (keys and connection identifiers assumed duplicate-free, as dict
keys and distinct OS pipe endpoints are). -/
theorem count_cleanup_all : ∀ (fids : List Nat) (t : PipeConnTable) (fid conn : Nat),
    (t.fut_to_pipe_conn.map Prod.fst).Nodup →
    (t.fut_to_pipe_conn.map Prod.snd).Nodup →
    (fid, conn) ∈ t.fut_to_pipe_conn →
    ((cleanup_all t fids).closed_conns.count conn) =
      t.closed_conns.count conn + (if fid ∈ fids then 1 else 0) := by
  intro fids
  induction fids with
  | nil => intro t fid conn _ _ _; simp [cleanup_all]
  | cons g rest ih =>
    intro t fid conn hk hv hm
    by_cases hg : g = fid
    · subst hg
      have hl : conn_lookup t.fut_to_pipe_conn g = some conn := conn_lookup_of_mem hk hm
      have hct : cleanup_pipe_connections t g =
          ⟨t.fut_to_pipe_conn.filter (fun p => decide (p.1 ≠ g)),
            t.closed_conns ++ [conn]⟩ := by
        simp [cleanup_pipe_connections, hl]
      have hnv : conn ∉
          (t.fut_to_pipe_conn.filter (fun p => decide (p.1 ≠ g))).map Prod.snd := by
        intro hmm
        obtain ⟨p, hp, hps⟩ := List.mem_map.mp hmm
        have hpl := List.mem_of_mem_filter hp
        have hpf := (List.mem_filter.mp hp).2
        have hpe : p = (g, conn) :=
          List.inj_on_of_nodup_map hv hpl hm (by rw [hps])
        rw [hpe] at hpf
        simp at hpf
      show ((cleanup_all (cleanup_pipe_connections t g) rest).closed_conns.count conn) = _
      rw [hct, count_cleanup_all_not_mem_vals rest _ conn hnv]
      simp [List.count_append, List.count_cons]
    · have hne : fid ≠ g := fun he => hg he.symm
      have hif : (if fid ∈ g :: rest then (1 : Nat) else 0) =
          (if fid ∈ rest then 1 else 0) := by
        simp [List.mem_cons, hne]
      rcases h : conn_lookup t.fut_to_pipe_conn g with _ | c
      · have hct : cleanup_pipe_connections t g = t := by
          simp [cleanup_pipe_connections, h]
        show ((cleanup_all (cleanup_pipe_connections t g) rest).closed_conns.count conn) = _
        rw [hct, ih t fid conn hk hv hm, hif]
      · have hmg : (g, c) ∈ t.fut_to_pipe_conn := conn_lookup_mem h
        have hcc : conn ≠ c := by
          intro he
          subst he
          have hpe : (g, conn) = (fid, conn) :=
            List.inj_on_of_nodup_map hv hmg hm rfl
          exact hg (congrArg Prod.fst hpe)
        have hct : cleanup_pipe_connections t g =
            ⟨t.fut_to_pipe_conn.filter (fun p => decide (p.1 ≠ g)),
              t.closed_conns ++ [c]⟩ := by
          simp [cleanup_pipe_connections, h]
        have hm2 : (fid, conn) ∈
            t.fut_to_pipe_conn.filter (fun p => decide (p.1 ≠ g)) :=
          List.mem_filter.mpr ⟨hm, by simpa using hne⟩
        have hk2 : ((t.fut_to_pipe_conn.filter
            (fun p => decide (p.1 ≠ g))).map Prod.fst).Nodup :=
          ((List.filter_sublist _).map Prod.fst).nodup hk
        have hv2 : ((t.fut_to_pipe_conn.filter
            (fun p => decide (p.1 ≠ g))).map Prod.snd).Nodup :=
          ((List.filter_sublist _).map Prod.snd).nodup hv
        show ((cleanup_all (cleanup_pipe_connections t g) rest).closed_conns.count conn) = _
        rw [hct, ih _ fid conn hk2 hv2 hm2, hif]
        simp [List.count_append, List.count_cons, hcc.symm]

/-- After cleaning up a Future identifier, its key is gone from the
table. -/
theorem not_mem_keys_cleanup_self (t : PipeConnTable) (fid : Nat) :
    fid ∉ (cleanup_pipe_connections t fid).fut_to_pipe_conn.map Prod.fst := by
  rcases h : conn_lookup t.fut_to_pipe_conn fid with _ | c
  · have hct : cleanup_pipe_connections t fid = t := by
      simp [cleanup_pipe_connections, h]
    rw [hct]
    exact not_mem_keys_of_conn_lookup_none h
  · simp only [cleanup_pipe_connections, h]
    intro hm
    obtain ⟨p, hp, hps⟩ := List.mem_map.mp hm
    have hpf := (List.mem_filter.mp hp).2
    rw [hps] at hpf
    simp at hpf

/-- Key absence persists through further cleanup. -/
theorem not_mem_keys_cleanup_all_mono (fids : List Nat) (t : PipeConnTable) (fid : Nat)
    (h : fid ∉ t.fut_to_pipe_conn.map Prod.fst) :
    fid ∉ (cleanup_all t fids).fut_to_pipe_conn.map Prod.fst := by
  intro hm
  exact h (((cleanup_all_table_sublist fids t).map Prod.fst).subset hm)

/-- Once a Future identifier appears among the cleaned-up identifiers, it is
no longer a key of the table. -/
theorem not_mem_keys_cleanup_all : ∀ (fids : List Nat) (t : PipeConnTable) (fid : Nat),
    fid ∈ fids →
    fid ∉ (cleanup_all t fids).fut_to_pipe_conn.map Prod.fst := by
  intro fids
  induction fids with
  | nil => intro t fid h; simp at h
  | cons g rest ih =>
    intro t fid h
    by_cases hg : g = fid
    · subst hg
      exact not_mem_keys_cleanup_all_mono rest _ g (not_mem_keys_cleanup_self t g)
    · have : fid ∈ rest := by
        rcases List.mem_cons.mp h with heq | hmem
        · exact absurd heq.symm hg
        · exact hmem
      exact ih (cleanup_pipe_connections t g) fid this

/-- The pipe-connection table returned by _get_all_wi_futs is exactly the
input table cleaned up at every done Future identifier, in visit order. -/
theorem get_all_wi_futs_table : ∀ (ctxss : List (List WorkItemStageRunCtx))
    (t : PipeConnTable),
    (get_all_wi_futs ctxss t).2 = cleanup_all t (all_done_fids ctxss) := by
  intro ctxss
  induction ctxss with
  | nil => intro t; rfl
  | cons ctxs rest ih =>
    intro t
    have hbind : all_done_fids (ctxs :: rest) =
        ((ctxs.filter (fun c => c.isDone)).map (fun c => c.fid)) ++ all_done_fids rest := by
      simp [all_done_fids]
    rw [hbind, cleanup_all_append]
    simp only [get_all_wi_futs]
    split <;> exact ih _

/-- C4 counterexample: one paired run whose writer handle (fid 0, endpoint
100) is done while its reader partner (fid 1, endpoint 101) is still
pending.  A single _get_all_wi_futs pass closes endpoint 100 — it appears in
the close history — although the partner handle 1 is returned as pending,
so the controller does close an endpoint while the partner handle of the
same paired run is still pending. -/
theorem c4_counterexample :
    get_all_wi_futs
        [[{ cur_stage := 0, fid := 0, isDone := true },
          { cur_stage := 1, fid := 1, isDone := false }]]
        { fut_to_pipe_conn := [(0, 100), (1, 101)], closed_conns := [] } =
      (([], [1]),
        { fut_to_pipe_conn := [(1, 101)], closed_conns := [100] }) ∧
    (100 : Nat) ∈ ((get_all_wi_futs
        [[{ cur_stage := 0, fid := 0, isDone := true },
          { cur_stage := 1, fid := 1, isDone := false }]]
        { fut_to_pipe_conn := [(0, 100), (1, 101)],
          closed_conns := [] }).2.closed_conns) ∧
    (1 : Nat) ∈ ((get_all_wi_futs
        [[{ cur_stage := 0, fid := 0, isDone := true },
          { cur_stage := 1, fid := 1, isDone := false }]]
        { fut_to_pipe_conn := [(0, 100), (1, 101)],
          closed_conns := [] }).1.2) := by
  refine ⟨by decide, by decide, by decide⟩

/-- C4 (amended): for every endpoint recorded in the per-handle channel
table (under duplicate-free handle keys and endpoint values), a controller
iteration closes it exactly once as soon as its own handle is observed
done — without waiting for the partner handle of the paired run — and,
the entry having been removed from the table at close time, no later
iteration ever closes it again. -/
theorem c4_endpoint_close_amended (ctxss ctxss2 : List (List WorkItemStageRunCtx))
    (t : PipeConnTable) (fid conn : Nat)
    (hk : (t.fut_to_pipe_conn.map Prod.fst).Nodup)
    (hv : (t.fut_to_pipe_conn.map Prod.snd).Nodup)
    (hm : (fid, conn) ∈ t.fut_to_pipe_conn) :
    ((get_all_wi_futs ctxss t).2.closed_conns.count conn) =
      t.closed_conns.count conn + (if fid ∈ all_done_fids ctxss then 1 else 0) ∧
    (fid ∈ all_done_fids ctxss →
      ((get_all_wi_futs ctxss2 (get_all_wi_futs ctxss t).2).2.closed_conns.count conn) =
        ((get_all_wi_futs ctxss t).2.closed_conns.count conn)) := by
  constructor
  · rw [get_all_wi_futs_table]
    exact count_cleanup_all _ t fid conn hk hv hm
  · intro hdone
    rw [get_all_wi_futs_table]
    apply count_cleanup_all_not_mem_vals
    rw [get_all_wi_futs_table]
    intro hmm
    obtain ⟨p, hp, hps⟩ := List.mem_map.mp hmm
    have hpt : p ∈ t.fut_to_pipe_conn :=
      (cleanup_all_table_sublist _ t).subset hp
    have hpe : p = (fid, conn) :=
      List.inj_on_of_nodup_map hv hpt hm (by rw [hps])
    have hkm : fid ∈ (cleanup_all t
        (all_done_fids ctxss)).fut_to_pipe_conn.map Prod.fst :=
      List.mem_map.mpr ⟨p, hp, by rw [hpe]⟩
    exact not_mem_keys_cleanup_all _ t fid hdone hkm

/-- Witness for c4_endpoint_close_amended: endpoint 100 of done handle 0 is
closed exactly once by the first pass and not closed again by a later pass
in which both handles are done. -/
theorem c4_witness :
    ((get_all_wi_futs
        [[{ cur_stage := 0, fid := 0, isDone := true },
          { cur_stage := 1, fid := 1, isDone := false }]]
        { fut_to_pipe_conn := [(0, 100), (1, 101)],
          closed_conns := [] }).2.closed_conns.count 100) =
      ({ fut_to_pipe_conn := [(0, 100), (1, 101)],
         closed_conns := [] } : PipeConnTable).closed_conns.count 100 +
        (if 0 ∈ all_done_fids
            [[{ cur_stage := 0, fid := 0, isDone := true },
              { cur_stage := 1, fid := 1, isDone := false }]] then 1 else 0) ∧
    (0 ∈ all_done_fids
        [[{ cur_stage := 0, fid := 0, isDone := true },
          { cur_stage := 1, fid := 1, isDone := false }]] →
      ((get_all_wi_futs
          [[{ cur_stage := 0, fid := 0, isDone := true },
            { cur_stage := 1, fid := 1, isDone := true }]]
          (get_all_wi_futs
            [[{ cur_stage := 0, fid := 0, isDone := true },
              { cur_stage := 1, fid := 1, isDone := false }]]
            { fut_to_pipe_conn := [(0, 100), (1, 101)],
              closed_conns := [] }).2).2.closed_conns.count 100) =
        ((get_all_wi_futs
            [[{ cur_stage := 0, fid := 0, isDone := true },
              { cur_stage := 1, fid := 1, isDone := false }]]
            { fut_to_pipe_conn := [(0, 100), (1, 101)],
              closed_conns := [] }).2.closed_conns.count 100)) :=
  c4_endpoint_close_amended
    [[{ cur_stage := 0, fid := 0, isDone := true },
      { cur_stage := 1, fid := 1, isDone := false }]]
    [[{ cur_stage := 0, fid := 0, isDone := true },
      { cur_stage := 1, fid := 1, isDone := true }]]
    { fut_to_pipe_conn := [(0, 100), (1, 101)], closed_conns := [] }
    0 100 (by decide) (by decide) (by decide)

/-- Filtering a mapped list is mapping the filtered list. -/
theorem filter_map_swap {α β : Type} (f : α → β) (p : β → Bool) :
    ∀ l : List α, (l.map f).filter p = (l.filter (fun a => p (f a))).map f := by
  intro l
  induction l with
  | nil => rfl
  | cons a rest ih =>
    simp only [List.map_cons, List.filter_cons]
    cases hpa : p (f a) <;> simp [hpa, ih]

/-- C6: in each controller iteration, _get_all_wi_futs returns, per work
item (each inner context list holding duplicate-free handle identifiers),
nothing in the settled list when any of the item's handles is unfinished —
even if another of its handles has completed — and all of the item's
handles, in the stored (stage-index) order, once every handle is done; the
pending list collects exactly the unfinished handles of the remaining
items. -/
theorem c6_settled_partition : ∀ (ctxss : List (List WorkItemStageRunCtx))
    (t : PipeConnTable),
    (∀ ctxs ∈ ctxss, (ctxs.map (fun c => c.fid)).Nodup) →
    (get_all_wi_futs ctxss t).1.1 =
      ctxss.flatMap (fun ctxs =>
        if ctxs.all (fun c => c.isDone) then ctxs.map (fun c => c.fid) else []) ∧
    (get_all_wi_futs ctxss t).1.2 =
      ctxss.flatMap (fun ctxs =>
        if ctxs.all (fun c => c.isDone) then []
        else (ctxs.filter (fun c => !c.isDone)).map (fun c => c.fid)) := by
  intro ctxss
  induction ctxss with
  | nil => intro t _; exact ⟨rfl, rfl⟩
  | cons ctxs rest ih =>
    intro t h
    have hn : (ctxs.map (fun c => c.fid)).Nodup := h ctxs (List.mem_cons_self _ _)
    have hrest : ∀ cs ∈ rest, (cs.map (fun c => c.fid)).Nodup :=
      fun cs hcs => h cs (List.mem_cons_of_mem _ hcs)
    have hpoint : ∀ c ∈ ctxs,
        (decide (c.fid ∉ (ctxs.filter (fun c => c.isDone)).map (fun c => c.fid))) =
          !c.isDone := by
      intro c hc
      cases hcd : c.isDone
      · simp only [Bool.not_false]
        apply decide_eq_true
        intro hmem
        obtain ⟨d, hd, hde⟩ := List.mem_map.mp hmem
        have hdl := List.mem_of_mem_filter hd
        have hdd := (List.mem_filter.mp hd).2
        have hdc : d = c := List.inj_on_of_nodup_map hn hdl hc hde
        rw [hdc, hcd] at hdd
        exact Bool.false_ne_true hdd
      · simp only [Bool.not_true]
        apply decide_eq_false
        intro hni
        exact hni (List.mem_map.mpr ⟨c, List.mem_filter.mpr ⟨hc, hcd⟩, rfl⟩)
    have hpend : (ctxs.map (fun c => c.fid)).filter
        (fun f => decide (f ∉ (ctxs.filter (fun c => c.isDone)).map (fun c => c.fid))) =
        (ctxs.filter (fun c => !c.isDone)).map (fun c => c.fid) := by
      rw [filter_map_swap, List.filter_congr hpoint]
    have hcond : ((ctxs.filter (fun c => !c.isDone)).map (fun c => c.fid)).isEmpty =
        ctxs.all (fun c => c.isDone) := by
      cases hall : ctxs.all (fun c => c.isDone)
      · obtain ⟨a, ha, hna⟩ := List.all_eq_false.mp hall
        have hmf : a ∈ ctxs.filter (fun c => !c.isDone) :=
          List.mem_filter.mpr ⟨ha, by simp [Bool.not_eq_true] at hna; simp [hna]⟩
        have hne : (ctxs.filter (fun c => !c.isDone)).map (fun c => c.fid) ≠ [] := by
          intro hnil
          rw [List.map_eq_nil_iff] at hnil
          rw [hnil] at hmf
          simp at hmf
        simpa [List.isEmpty_iff] using hne
      · have hfil : ctxs.filter (fun c => !c.isDone) = [] :=
          List.filter_eq_nil_iff.mpr
            (fun a ha => by simp [List.all_eq_true.mp hall a ha])
        simp [hfil]
    obtain ⟨ih1, ih2⟩ :=
      ih (cleanup_all t ((ctxs.filter (fun c => c.isDone)).map (fun c => c.fid))) hrest
    constructor
    · show (get_all_wi_futs (ctxs :: rest) t).1.1 = _
      simp only [get_all_wi_futs]
      rw [hpend, hcond, List.flatMap_cons]
      split <;> (rw [ih1]; try rfl)
    · show (get_all_wi_futs (ctxs :: rest) t).1.2 = _
      simp only [get_all_wi_futs]
      rw [hpend, hcond, List.flatMap_cons]
      split <;> (rw [ih2]; try rfl)

/-- Witness for c6_settled_partition: two items, one fully done and one with
a completed half and a pending half. -/
theorem c6_witness :
    (get_all_wi_futs
        ([[⟨0, 2, true⟩, ⟨1, 3, true⟩], [⟨0, 4, true⟩, ⟨1, 5, false⟩]] :
          List (List WorkItemStageRunCtx))
        { fut_to_pipe_conn := [], closed_conns := [] }).1.1 =
      ([[⟨0, 2, true⟩, ⟨1, 3, true⟩], [⟨0, 4, true⟩, ⟨1, 5, false⟩]] :
          List (List WorkItemStageRunCtx)).flatMap
        (fun ctxs =>
          if ctxs.all (fun c => c.isDone) then ctxs.map (fun c => c.fid) else []) ∧
    (get_all_wi_futs
        ([[⟨0, 2, true⟩, ⟨1, 3, true⟩], [⟨0, 4, true⟩, ⟨1, 5, false⟩]] :
          List (List WorkItemStageRunCtx))
        { fut_to_pipe_conn := [], closed_conns := [] }).1.2 =
      ([[⟨0, 2, true⟩, ⟨1, 3, true⟩], [⟨0, 4, true⟩, ⟨1, 5, false⟩]] :
          List (List WorkItemStageRunCtx)).flatMap
        (fun ctxs =>
          if ctxs.all (fun c => c.isDone) then []
          else (ctxs.filter (fun c => !c.isDone)).map (fun c => c.fid)) :=
  c6_settled_partition
    ([[⟨0, 2, true⟩, ⟨1, 3, true⟩], [⟨0, 4, true⟩, ⟨1, 5, false⟩]] :
      List (List WorkItemStageRunCtx))
    { fut_to_pipe_conn := [], closed_conns := [] }
    (by decide)

/-- Appending an exception always leaves the item failed. -/
theorem append_is_failed (wi : PipelineWorkItem) (e : PErr) :
    (wi.append_exception e).is_failed = true := by
  simp [PipelineWorkItem.is_failed, PipelineWorkItem.append_exception]

/-- Appending an exception and then moving the stage index leaves the item
failed. -/
theorem append_cur_is_failed (wi : PipelineWorkItem) (e : PErr) (n : Nat) :
    ({ wi.append_exception e with cur_stage := n } : PipelineWorkItem).is_failed = true := by
  simp [PipelineWorkItem.is_failed, PipelineWorkItem.append_exception]

/-- The advancement loop, entered at a stage index from which every stage
before j is a non-paired stage whose predicate declines the item, and whose
predicate at stage j raises e: the exception is appended, the item jumps to
num_stages, nothing is submitted.  Stage j is either non-paired, or paired
with a successor that exists. -/
theorem stage_loop_skip_to_raise (stages : List PipelineStage)
    (preds : Nat → PipelineWorkItem → PredOutcome) (j : Nat) (e : PErr)
    (hj : j < stages.length)
    (hshape : (stages.getD j default).is_pipe_with_next_stage = false ∨
      j + 1 < stages.length) :
    ∀ (d : Nat) (wi : PipelineWorkItem),
    wi.is_failed = false →
    wi.cur_stage + d = j →
    (∀ k, wi.cur_stage ≤ k → k < j →
      (stages.getD k default).is_pipe_with_next_stage = false ∧
      preds k { wi with cur_stage := k } = PredOutcome.ok false) →
    preds j { wi with cur_stage := j } = PredOutcome.raised e →
    stage_loop stages preds (stages.length - wi.cur_stage) wi =
      .ok ({ wi with
              cur_stage := stages.length,
              exceptions := some (wi.exceptions.getD [] ++ [e]) }, []) := by
  intro d
  induction d with
  | zero =>
    intro wi hfail hd hskip hraise
    have hj0 : wi.cur_stage = j := by omega
    have hwi : ({ wi with cur_stage := j } : PipelineWorkItem) = wi := by
      rw [← hj0]
    rw [hwi] at hraise
    have hfuel : stages.length - wi.cur_stage =
        (stages.length - wi.cur_stage - 1) + 1 := by omega
    rw [hfuel]
    simp only [stage_loop]
    rw [if_pos (show wi.cur_stage < stages.length by omega)]
    by_cases hp : (stages.getD wi.cur_stage default).is_pipe_with_next_stage = true
    · rcases hshape with hnp | hlt
      · rw [hj0, hnp] at hp
        exact absurd hp (by simp)
      · rw [if_pos hp]
        simp only [try_submit_to_dual_stage_with_pipe]
        rw [if_neg (show ¬wi.cur_stage = stages.length - 1 by omega)]
        simp only [is_stage_for_work_item, hj0, hraise, Bool.not_false, if_true,
          append_is_failed, append_cur_is_failed]
        rfl
    · rw [if_neg hp]
      simp only [try_submit_to_stage, is_stage_for_work_item, hj0, hraise,
        Bool.not_false, if_true, append_is_failed, append_cur_is_failed]
      rfl
  | succ d ih =>
    intro wi hfail hd hskip hraise
    have hcl : wi.cur_stage < stages.length := by omega
    have hfuel : stages.length - wi.cur_stage =
        (stages.length - (wi.cur_stage + 1)) + 1 := by omega
    rw [hfuel]
    simp only [stage_loop]
    rw [if_pos hcl]
    have hsk := hskip wi.cur_stage le_rfl (by omega)
    have hwi0 : ({ wi with cur_stage := wi.cur_stage } : PipelineWorkItem) = wi := rfl
    rw [hwi0] at hsk
    rw [if_neg (show ¬(stages.getD wi.cur_stage
        default).is_pipe_with_next_stage = true by rw [hsk.1]; simp)]
    have hts : try_submit_to_stage stages preds wi = (wi, [], false) := by
      simp [try_submit_to_stage, is_stage_for_work_item, hsk.2, hfail]
    rw [hts]
    simp only [hfail, Bool.false_eq_true, if_false]
    have hd2 : (wi.increment_stage).cur_stage + d = j := by
      show wi.cur_stage + 1 + d = j
      omega
    have hskip2 : ∀ k, (wi.increment_stage).cur_stage ≤ k → k < j →
        (stages.getD k default).is_pipe_with_next_stage = false ∧
        preds k { wi.increment_stage with cur_stage := k } = PredOutcome.ok false := by
      intro k hk1 hk2
      have hk1a : wi.cur_stage + 1 ≤ k := hk1
      exact hskip k (by omega) hk2
    exact ih wi.increment_stage hfail hd2 hskip2 hraise

/-- C7: when the advancement walk reaches stage j (skipping earlier
non-paired stages whose predicates decline) and stage j's predicate raises
e, the exception is appended to the item as a failure, the item becomes
failed and terminal (stage index set to num_stages), it is finalized
(finished flag true), and nothing is submitted to stage j or any later
stage (the submission list is empty).  Stage j may be non-paired or paired
with an existing successor. -/
theorem c7_predicate_raises (stages : List PipelineStage)
    (preds : Nat → PipelineWorkItem → PredOutcome) (wi : PipelineWorkItem)
    (j : Nat) (e : PErr)
    (hfail : wi.is_failed = false)
    (hcur : wi.cur_stage ≤ j)
    (hj : j < stages.length)
    (hskip : ∀ k, wi.cur_stage ≤ k → k < j →
      (stages.getD k default).is_pipe_with_next_stage = false ∧
      preds k { wi with cur_stage := k } = PredOutcome.ok false)
    (hraise : preds j { wi with cur_stage := j } = PredOutcome.raised e)
    (hshape : (stages.getD j default).is_pipe_with_next_stage = false ∨
      j + 1 < stages.length) :
    handle_stages_for_wi stages preds wi =
      .ok ⟨{ wi with
              cur_stage := stages.length,
              exceptions := some (wi.exceptions.getD [] ++ [e]) }, [], true⟩ := by
  have hloop := stage_loop_skip_to_raise stages preds j e hj hshape
    (j - wi.cur_stage) wi hfail (by omega) hskip hraise
  simp only [handle_stages_for_wi]
  rw [if_neg (show ¬wi.cur_stage > stages.length by omega)]
  rw [hloop]
  simp

/-- Witness for c7_predicate_raises: two non-paired stages, stage 0
declines, stage 1's predicate raises userError 7. -/
theorem c7_witness :
    handle_stages_for_wi
        [{ is_subprocess := false, is_pipe_with_next_stage := false },
         { is_subprocess := false, is_pipe_with_next_stage := false }]
        (fun k _ => if k = 0 then PredOutcome.ok false
          else PredOutcome.raised (PErr.userError 7))
        { cur_stage := 0, user_obj := 0, user_kwargs := [],
          exceptions := Option.none, pipe_conn := Option.none,
          auto_copy_attr := true, extra_attrs := [] } =
      .ok ⟨{ cur_stage := 2, user_obj := 0, user_kwargs := [],
             exceptions := some [PErr.userError 7], pipe_conn := Option.none,
             auto_copy_attr := true, extra_attrs := [] }, [], true⟩ :=
  c7_predicate_raises
    [{ is_subprocess := false, is_pipe_with_next_stage := false },
     { is_subprocess := false, is_pipe_with_next_stage := false }]
    (fun k _ => if k = 0 then PredOutcome.ok false
      else PredOutcome.raised (PErr.userError 7))
    { cur_stage := 0, user_obj := 0, user_kwargs := [],
      exceptions := Option.none, pipe_conn := Option.none,
      auto_copy_attr := true, extra_attrs := [] }
    1 (PErr.userError 7) rfl (by decide) (by decide)
    (by
      intro k hk1 hk2
      have hk0 : k = 0 := by omega
      subst hk0
      exact ⟨rfl, rfl⟩)
    rfl (Or.inl rfl)

/-- C8: when a work item reaches a final stage that declares pairing with a
(non-existent) successor, _try_submit_to_dual_stage_with_pipe raises
PipelineLastStageError out of _handle_stages_for_wi, and the controller's
exception handler finalizes the item with that error as its failure (the
error is appended to the item and its user-visible future completes with
that exception). -/
theorem c8_last_stage_paired (stages : List PipelineStage)
    (preds : Nat → PipelineWorkItem → PredOutcome) (wi : PipelineWorkItem)
    (others : List (PipelineWorkItem × FutState))
    (h0 : 0 < stages.length)
    (hp : (stages.getD (stages.length - 1) default).is_pipe_with_next_stage = true)
    (hcur : wi.cur_stage = stages.length - 1) :
    handle_stages_for_wi stages preds wi =
      .error (PErr.pipelineLastStageError, wi) ∧
    pl_worker_advance stages preds wi others =
      ((wi.append_exception PErr.pipelineLastStageError,
        FutState.exc PErr.pipelineLastStageError) ::
          fail_all_pending others PErr.pipelineLastStageError, true) := by
  have hmain : handle_stages_for_wi stages preds wi =
      .error (PErr.pipelineLastStageError, wi) := by
    simp only [handle_stages_for_wi]
    rw [if_neg (show ¬wi.cur_stage > stages.length by omega)]
    have hfuel : stages.length - wi.cur_stage = 0 + 1 := by omega
    rw [hfuel]
    simp only [stage_loop]
    rw [if_pos (show wi.cur_stage < stages.length by omega)]
    rw [hcur]
    rw [if_pos hp]
    simp only [try_submit_to_dual_stage_with_pipe]
    rw [if_pos hcur]
  refine ⟨hmain, ?_⟩
  simp only [pl_worker_advance, hmain]
  simp [fail_all_pending]

/-- Witness for c8_last_stage_paired: a one-stage pipeline whose single
(last) stage declares pairing. -/
theorem c8_witness :
    handle_stages_for_wi
        [{ is_subprocess := true, is_pipe_with_next_stage := true }]
        (fun _ _ => PredOutcome.ok false)
        { cur_stage := 0, user_obj := 0, user_kwargs := [],
          exceptions := Option.none, pipe_conn := Option.none,
          auto_copy_attr := true, extra_attrs := [] } =
      .error (PErr.pipelineLastStageError,
        { cur_stage := 0, user_obj := 0, user_kwargs := [],
          exceptions := Option.none, pipe_conn := Option.none,
          auto_copy_attr := true, extra_attrs := [] }) ∧
    pl_worker_advance
        [{ is_subprocess := true, is_pipe_with_next_stage := true }]
        (fun _ _ => PredOutcome.ok false)
        { cur_stage := 0, user_obj := 0, user_kwargs := [],
          exceptions := Option.none, pipe_conn := Option.none,
          auto_copy_attr := true, extra_attrs := [] } [] =
      (({ cur_stage := 0, user_obj := 0, user_kwargs := [],
          exceptions := some [PErr.pipelineLastStageError],
          pipe_conn := Option.none, auto_copy_attr := true,
          extra_attrs := [] },
        FutState.exc PErr.pipelineLastStageError) ::
          fail_all_pending [] PErr.pipelineLastStageError, true) :=
  c8_last_stage_paired
    [{ is_subprocess := true, is_pipe_with_next_stage := true }]
    (fun _ _ => PredOutcome.ok false)
    { cur_stage := 0, user_obj := 0, user_kwargs := [],
      exceptions := Option.none, pipe_conn := Option.none,
      auto_copy_attr := true, extra_attrs := [] }
    [] (by decide) (by decide) rfl

end Theorems
